import Mathlib

/-!
Shallow embedding of `src/commoncrawl_search.py` (a Common Crawl search
script) and verification of the frozen claims about it.

Modelling conventions:
* Python exceptions are the inductive `PyExc`; its constructors stand for
  the exception classes the script distinguishes in its `except` clauses
  (`requests.exceptions.Timeout`, `requests.exceptions.HTTPError`,
  `ValueError`, `KeyError`, everything else).
* A function that only prints returns the list of printed lines; a function
  that can raise returns the printed lines together with `Option PyExc`
  (`none` = completed normally) so that output printed before an exception
  is kept, as in Python.
* The network is a parameter: the index request is abstracted as the
  `Except PyExc HttpResponse` it yields, and the archive request as a
  function from the issued `HttpRequest` (url and Range header) to an
  `Except PyExc ArchiveResponse` whose records model what
  `warcio.ArchiveIterator` would yield (a failing archive parse is an
  `.error` outcome).
* `json.loads` is a parameter `jsonLoads`; a small executable model
  `json_loads` (flat objects with escape-free string and integer values,
  exactly the shape of index records) instantiates it in witnesses.
* `BeautifulSoup(content, 'html.parser')` is a parameter
  `parse : String → Soup`, where `Soup` records exactly what
  `process_content` consumes: `soup.find ("title")`, the
  `soup.find ("meta", property=og:url)` result, and `soup.get_text ()`.
  bs4 `Tag.__bool__` is constantly `True`, so tag truthiness is `isSome`.
* `time.sleep (1)` has no observable effect in this model.
-/

namespace CCSearch

/-- Python exception classes distinguished by the script's `except` clauses. -/
inductive PyExc where
  | timeout
  | httpError (msg : String)
  | valueError (msg : String)
  | keyError (msg : String)
  | other (msg : String)
deriving DecidableEq

/-- Message text used when an exception is interpolated into a print. -/
def excMsg : PyExc → String
  | .timeout => "timeout"
  | .httpError m => m
  | .valueError m => m
  | .keyError m => m
  | .other m => m

/-- A Python value as it occurs in an index record's JSON object:
`None`, a string, or an integer. -/
inductive PyVal where
  | vnone
  | vstr (s : String)
  | vint (n : Int)
deriving DecidableEq

/-- A parsed JSON object (Python dict), in document order. -/
abbrev Dict := List (String × PyVal)

/-- `record.get (key)`: the value stored under `key`, or `None` when absent. -/
def dictGet (d : Dict) (k : String) : PyVal :=
  match d.find? (fun p => p.1 == k) with
  | some p => p.2
  | none => .vnone

/-- Python truthiness of the values `record.get` can return:
`None` and the empty string and `0` are falsy. -/
def pyTruthy : PyVal → Bool
  | .vnone => false
  | .vstr s => !(s == "")
  | .vint n => !(n == 0)

/-- Python whitespace stripped by `str.strip ()`. -/
def isPySpace (c : Char) : Bool :=
  c == ' ' || c == '\t' || c == '\n' || c == '\r' || c == Char.ofNat 11 || c == Char.ofNat 12

/-- `str.strip ()`: remove leading and trailing whitespace. -/
def pyStrip (s : String) : String :=
  String.mk (((s.data.dropWhile isPySpace).reverse.dropWhile isPySpace).reverse)

/-- `int (s)` on a string: optional surrounding whitespace, optional sign,
then at least one digit (digit-group underscores, which Python also accepts,
are not modelled; no claim involves them). -/
def parsePyIntString (s : String) : Option Int :=
  let t := (pyStrip s).data
  let signed : Bool × List Char :=
    match t with
    | '-' :: rest => (true, rest)
    | '+' :: rest => (false, rest)
    | l => (false, l)
  let digits := signed.2
  if !digits.isEmpty && digits.all Char.isDigit then
    let n : Nat := digits.foldl (fun acc c => acc * 10 + (c.toNat - 48)) 0
    some (if signed.1 then -(n : Int) else (n : Int))
  else
    none

/-- `int (v)` on a value obtained from `record.get`: an int passes through,
a string is parsed (raising `ValueError` when not numeric), `None` raises
a non-ValueError (`TypeError`). -/
def pyInt : PyVal → Except PyExc Int
  | .vnone => .error (.other "int() argument must be a string, not NoneType")
  | .vint n => .ok n
  | .vstr s =>
    match parsePyIntString s with
    | some n => .ok n
    | none => .error (.valueError ("invalid literal for int() with base 10: \x27" ++ s ++ "\x27"))

/-- `str (v)` as an f-string would render the value. -/
def pyStrOf : PyVal → String
  | .vnone => "None"
  | .vstr s => s
  | .vint n => toString n

/-- Python `repr` of a record value, used when a dict is printed. -/
def reprVal : PyVal → String
  | .vnone => "None"
  | .vstr s => "\x27" ++ s ++ "\x27"
  | .vint n => toString n

/-- Python `repr` of a dict, used when an index record is printed. -/
def reprDict (d : Dict) : String :=
  "\x7b" ++ String.intercalate ", " (d.map (fun p => "\x27" ++ p.1 ++ "\x27: " ++ reprVal p.2)) ++ "\x7d"

/-- Python string slicing `s[:n]` (by code point). -/
def takeChars (n : Nat) (s : String) : String :=
  String.mk (s.data.take n)

/-- A UTF-8 continuation byte. -/
def isCont (b : Nat) : Bool := 0x80 ≤ b && b ≤ 0xBF

/-- Allowed first continuation byte after a three-byte lead (excluding
overlong forms after `E0` and surrogates after `ED`). -/
def cont3first (b b1 : Nat) : Bool :=
  if b == 0xE0 then 0xA0 ≤ b1 && b1 ≤ 0xBF
  else if b == 0xED then 0x80 ≤ b1 && b1 ≤ 0x9F
  else isCont b1

/-- Allowed first continuation byte after a four-byte lead (excluding
overlong forms after `F0` and out-of-range planes after `F4`). -/
def cont4first (b b1 : Nat) : Bool :=
  if b == 0xF0 then 0x90 ≤ b1 && b1 ≤ 0xBF
  else if b == 0xF4 then 0x80 ≤ b1 && b1 ≤ 0x8F
  else isCont b1

/-- UTF-8 decoding as CPython does it, parameterised by what an undecodable
maximal subpart produces: `err = []` models `errors=ignore` (the byte
sequence is dropped), `err = [U+FFFD]` models `errors=replace`. -/
def utf8DecodeWith (err : List Char) : List Nat → List Char
  | [] => []
  | b :: rest =>
    if b ≤ 0x7F then Char.ofNat b :: utf8DecodeWith err rest
    else if 0xC2 ≤ b && b ≤ 0xDF then
      match rest with
      | [] => err
      | b1 :: rest1 =>
        if isCont b1 then
          Char.ofNat ((b - 0xC0) * 64 + (b1 - 0x80)) :: utf8DecodeWith err rest1
        else err ++ utf8DecodeWith err (b1 :: rest1)
    else if 0xE0 ≤ b && b ≤ 0xEF then
      match rest with
      | [] => err
      | b1 :: rest1 =>
        if cont3first b b1 then
          match rest1 with
          | [] => err
          | b2 :: rest2 =>
            if isCont b2 then
              Char.ofNat ((b - 0xE0) * 4096 + (b1 - 0x80) * 64 + (b2 - 0x80)) :: utf8DecodeWith err rest2
            else err ++ utf8DecodeWith err (b2 :: rest2)
        else err ++ utf8DecodeWith err (b1 :: rest1)
    else if 0xF0 ≤ b && b ≤ 0xF4 then
      match rest with
      | [] => err
      | b1 :: rest1 =>
        if cont4first b b1 then
          match rest1 with
          | [] => err
          | b2 :: rest2 =>
            if isCont b2 then
              match rest2 with
              | [] => err
              | b3 :: rest3 =>
                if isCont b3 then
                  Char.ofNat ((b - 0xF0) * 262144 + (b1 - 0x80) * 4096 + (b2 - 0x80) * 64 + (b3 - 0x80)) :: utf8DecodeWith err rest3
                else err ++ utf8DecodeWith err (b3 :: rest3)
            else err ++ utf8DecodeWith err (b2 :: rest2)
        else err ++ utf8DecodeWith err (b1 :: rest1)
    else err ++ utf8DecodeWith err rest

/-- `bytes.decode ("utf-8", errors="ignore")` — what the source uses:
undecodable bytes are dropped. -/
def utf8DecodeIgnore (bs : List Nat) : List Char := utf8DecodeWith [] bs

/-- Modelled from the spec: `bytes.decode ("utf-8", errors="replace")` — the
decode the spec describes ("replacing undecodable bytes rather than
failing"): each undecodable maximal subpart becomes U+FFFD. -/
def utf8DecodeReplace (bs : List Nat) : List Char := utf8DecodeWith [Char.ofNat 0xFFFD] bs

/-- An HTTP response to the index request: status code and decoded body
(`response.text`). -/
structure HttpResponse where
  status : Nat
  body : String
deriving DecidableEq

/-- The archive request `fetch_single_record` issues: URL and `Range` header. -/
structure HttpRequest where
  url : String
  range : String
deriving DecidableEq

/-- One record yielded by `warcio.ArchiveIterator`: its `rec_type` and the
bytes `content_stream ().read ()` returns. -/
structure WarcRecord where
  rec_type : String
  body : List Nat
deriving DecidableEq

/-- An HTTP response to the archive request: status code and the WARC
records the container holds, in stream order. -/
structure ArchiveResponse where
  status : Nat
  records : List WarcRecord
deriving DecidableEq

/-- `response.raise_for_status ()` raises `HTTPError` exactly for 4xx/5xx. -/
def isHttpErrorStatus (status : Nat) : Prop := 400 ≤ status ∧ status < 600

instance (status : Nat) : Decidable (isHttpErrorStatus status) := by
  unfold isHttpErrorStatus
  infer_instance

/-- The message of the `HTTPError` raised by `raise_for_status`. -/
def statusMsg (status : Nat) : String := toString status ++ " Error"

/-- Accumulator form of `str.split ("\n")`. -/
def splitLinesAux : List Char → List Char → List String
  | [], acc => [String.mk acc.reverse]
  | c :: rest, acc =>
    if c == '\n' then String.mk acc.reverse :: splitLinesAux rest []
    else splitLinesAux rest (c :: acc)

/-- Python `str.split ("\n")`: every newline separates, so `""` yields
`[""]` and adjacent newlines yield empty lines. -/
def pySplitNewline (s : String) : List String := splitLinesAux s.data []

/-- `response.text.strip ().split ("\n")` in `search_cc_index`. -/
def indexLines (body : String) : List String := pySplitNewline (pyStrip body)

/-- The `try` block of `search_cc_index` (lines 31-35): `raise_for_status`,
then split the stripped body into lines and parse every line with
`json.loads`; the value is the returned list or the exception reaching the
`except` clauses. -/
def search_cc_index_result {J : Type} (jsonLoads : String → Except PyExc J)
    (net : Except PyExc HttpResponse) : Except PyExc (List J) :=
  match net with
  | .error e => .error e
  | .ok resp =>
    if isHttpErrorStatus resp.status then .error (.httpError (statusMsg resp.status))
    else (indexLines resp.body).mapM jsonLoads

/-- `search_cc_index (query, index_name)` (lines 17-43): issue the index
request (abstracted as its outcome `net`) and run the `try` block; on any
exception print the matching message and return `[]`. Result: printed
lines and the returned list. -/
def search_cc_index {J : Type} (jsonLoads : String → Except PyExc J)
    (query : String) (net : Except PyExc HttpResponse) : List String × List J :=
  match search_cc_index_result jsonLoads net with
  | .ok records => ([], records)
  | .error .timeout => (["Тайм-аут при выполнении запроса для " ++ query], [])
  | .error (.httpError m) => (["HTTP ошибка при выполнении запроса для " ++ query ++ ": " ++ m], [])
  | .error e => (["Ошибка при выполнении запроса для " ++ query ++ ": " ++ excMsg e], [])

/-- The request `fetch_single_record` builds (lines 58-59):
`s3_url = https://data.commoncrawl.org/{filename}` and
`byte_range = bytes={offset}-{offset + length - 1}`. -/
def fetch_request (warc_record_filename : String) (offset length : Int) : HttpRequest :=
  { url := "https://data.commoncrawl.org/" ++ warc_record_filename
  , range := "bytes=" ++ toString offset ++ "-" ++ toString (offset + length - 1) }

/-- The body of `fetch_single_record` after the request's outcome is known
(lines 61-85): `raise_for_status`; if the status is 206, return the first
record tagged `response`, its body decoded as UTF-8 with errors ignored;
otherwise print a message; on an exception print the matching message;
all failure paths return `None`. -/
def fetch_single_record_resp (warc_record_filename : String)
    (resp : Except PyExc ArchiveResponse) : List String × Option String :=
  match resp with
  | .error .timeout => (["Тайм-аут при извлечении данных из " ++ warc_record_filename], none)
  | .error (.httpError m) =>
      (["HTTP ошибка при извлечении данных из " ++ warc_record_filename ++ ": " ++ m], none)
  | .error e =>
      (["Ошибка при извлечении данных из " ++ warc_record_filename ++ ": " ++ excMsg e], none)
  | .ok r =>
    if isHttpErrorStatus r.status then
      (["HTTP ошибка при извлечении данных из " ++ warc_record_filename ++ ": " ++ statusMsg r.status], none)
    else if r.status == 206 then
      match r.records.find? (fun rec => rec.rec_type == "response") with
      | some rec => ([], some (String.mk (utf8DecodeIgnore rec.body)))
      | none => ([], none)
    else
      (["Не удалось получить данные: " ++ toString r.status], none)

/-- `fetch_single_record (warc_record_filename, offset, length)`
(lines 46-85): issue the ranged GET built by `fetch_request` against the
archive store (`net`) and process its outcome. -/
def fetch_single_record (net : HttpRequest → Except PyExc ArchiveResponse)
    (warc_record_filename : String) (offset length : Int) : List String × Option String :=
  fetch_single_record_resp warc_record_filename
    (net (fetch_request warc_record_filename offset length))

/-- A bs4 tag as `process_content` consumes it: its attribute dict and its
`get_text ()`. -/
structure Tag where
  attrs : List (String × String)
  text : String
deriving DecidableEq

/-- What `BeautifulSoup (content, html.parser)` provides to
`process_content`: the result of `soup.find ("title")`, the result of
`soup.find ("meta", attrs=property:og:url)`, and `soup.get_text ()`. -/
structure Soup where
  titleTag : Option Tag
  metaOgUrl : Option Tag
  fullText : String
deriving DecidableEq

/-- bs4 `tag[key]`: the attribute's value, or `KeyError` when absent. -/
def tagGetItem (t : Tag) (key : String) : Except PyExc String :=
  match t.attrs.lookup key with
  | some v => .ok v
  | none => .error (.keyError key)

/-- `title.get_text (strip=True)`: the title's text with surrounding
whitespace stripped (exact for a title holding a single text node, the only
shape the claims exercise). -/
def titleGetTextStrip (t : Tag) : String := pyStrip t.text

/-- `process_content (content, query)` (lines 88-108): parse the HTML,
print a header, the title (fallback "Без заголовка"), the og:url meta
tag's `content` attribute (fallback "Неизвестно" when the tag is absent;
`KeyError` when the tag is present without that attribute), and the first
1000 characters of `soup.get_text ()`. Returns the printed lines and the
escaped exception, if any (lines printed before the exception are kept). -/
def process_content (parse : String → Soup) (content query : String) :
    List String × Option PyExc :=
  let soup := parse content
  let title_text :=
    match soup.titleTag with
    | some t => titleGetTextStrip t
    | none => "Без заголовка"
  let pre := ["\n--- Результат для запроса: " ++ query ++ " ---",
              "Заголовок страницы: " ++ title_text]
  match soup.metaOgUrl with
  | some m =>
    match tagGetItem m "content" with
    | .ok url =>
      (pre ++ ["URL: " ++ url,
               "--- Начало контента страницы ---",
               takeChars 1000 soup.fullText,
               "--- Конец контента страницы ---\n"], none)
    | .error e => (pre, some e)
  | none =>
    (pre ++ ["URL: Неизвестно",
             "--- Начало контента страницы ---",
             takeChars 1000 soup.fullText,
             "--- Конец контента страницы ---\n"], none)

/-- The script's external world: the index service (keyed by query and
index name — URL encoding is internal to that abstraction), `json.loads`,
the archive store (keyed by the issued request), and the HTML parser. -/
structure Env where
  indexNet : String → String → Except PyExc HttpResponse
  jsonLoads : String → Except PyExc Dict
  archiveNet : HttpRequest → Except PyExc ArchiveResponse
  parse : String → Soup

/-- Message printed for a record missing `filename`, `offset` or `length`. -/
def noDataMsg (record : Dict) : String :=
  "Недостаточно данных для извлечения записи: " ++ reprDict record

/-- Message printed when `fetch_single_record` returned no content. -/
def fetchFailMsg (record : Dict) : String :=
  "Не удалось извлечь контент для записи: " ++ reprDict record

/-- The driver's per-record body (lines 130-145): read `filename`, `offset`
and `length` with `.get`; if all three are truthy, convert offset and
length with `int` (which can raise) and fetch; on content, process it
(`if content:` — `None` and the empty string both count as a failed
fetch); otherwise print the skip message. `time.sleep (1)` is unobservable
here. -/
def handle_record (env : Env) (query : String) (record : Dict) :
    List String × Option PyExc :=
  let warc_filename := dictGet record "filename"
  let offset := dictGet record "offset"
  let length := dictGet record "length"
  if pyTruthy warc_filename && pyTruthy offset && pyTruthy length then
    match pyInt offset with
    | .error e => ([], some e)
    | .ok oi =>
      match pyInt length with
      | .error e => ([], some e)
      | .ok li =>
        let fetched := fetch_single_record env.archiveNet (pyStrOf warc_filename) oi li
        match fetched.2 with
        | some content =>
          if content == "" then (fetched.1 ++ [fetchFailMsg record], none)
          else
            let pc := process_content env.parse content query
            (fetched.1 ++ pc.1, pc.2)
        | none => (fetched.1 ++ [fetchFailMsg record], none)
  else
    ([noDataMsg record], none)

/-- The driver's loop over the first records of a query (line 130),
stopping (with output kept) at the first escaped exception. -/
def run_records (env : Env) (query : String) : List Dict → List String × Option PyExc
  | [] => ([], none)
  | record :: rest =>
    match handle_record env query record with
    | (out, some e) => (out, some e)
    | (out, none) =>
      match run_records env query rest with
      | (out2, e2) => (out ++ out2, e2)

/-- The driver's per-query body (lines 122-147): announce the query, search
the index, and either report "no results" or process the first 5 records. -/
def handle_query (env : Env) (index_name query : String) :
    List String × Option PyExc :=
  let sr := search_cc_index env.jsonLoads query (env.indexNet query index_name)
  let records := sr.2
  let pre := ("\nПоиск по запросу: " ++ query) :: sr.1
  if records.isEmpty then
    (pre ++ ["Результаты не найдены для " ++ query], none)
  else
    let rr := run_records env query (records.take 5)
    (pre ++ ["Найдено " ++ toString records.length ++ " записей для " ++ query] ++ rr.1, rr.2)

/-- The driver's loop over one group's queries. -/
def run_queries (env : Env) (index_name : String) : List String → List String × Option PyExc
  | [] => ([], none)
  | query :: rest =>
    match handle_query env index_name query with
    | (out, some e) => (out, some e)
    | (out, none) =>
      match run_queries env index_name rest with
      | (out2, e2) => (out ++ out2, e2)

/-- The driver's loop over query groups (lines 119-149), with the group
banner and completion lines. -/
def run_groups (env : Env) (index_name : String) :
    List (String × List String) → List String × Option PyExc
  | [] => ([], none)
  | (group_name, query_list) :: rest =>
    match run_queries env index_name query_list with
    | (out, some e) =>
      (("\n=== Поиск для группы: " ++ group_name ++ " ===\n") :: out, some e)
    | (out, none) =>
      match run_groups env index_name rest with
      | (out2, e2) =>
        ((("\n=== Поиск для группы: " ++ group_name ++ " ===\n") :: out ++
          ["\n=== Поиск для группы " ++ group_name ++ " завершен ==="]) ++ out2, e2)

/-- `search_and_print_results (queries, index_name)` (lines 111-149): the
whole driver. `queries` is the dict as an insertion-ordered list of
(group name, query list) pairs. -/
def search_and_print_results (env : Env) (queries : List (String × List String))
    (index_name : String) : List String × Option PyExc :=
  run_groups env index_name queries

/-- JSON whitespace. -/
def skipWs : List Char → List Char
  | [] => []
  | c :: rest => if c == ' ' || c == '\t' || c == '\n' || c == '\r' then skipWs rest else c :: rest

/-- Scan the remainder of a JSON string literal (no escapes — index-record
fields contain none). -/
def jsonStrAux : List Char → List Char → Option (String × List Char)
  | [], _ => none
  | c :: rest, acc =>
    if c == '\"' then some (String.mk acc.reverse, rest)
    else if c == Char.ofNat 92 then none
    else jsonStrAux rest (c :: acc)

/-- A JSON string literal. -/
def jsonStr : List Char → Option (String × List Char)
  | c :: rest => if c == '\"' then jsonStrAux rest [] else none
  | [] => none

/-- A JSON integer literal. -/
def jsonNum (l : List Char) : Option (Int × List Char) :=
  let signed : Bool × List Char :=
    match l with
    | '-' :: rest => (true, rest)
    | _ => (false, l)
  let ds := signed.2.takeWhile Char.isDigit
  let rest := signed.2.dropWhile Char.isDigit
  if ds.isEmpty then none
  else
    let n : Nat := ds.foldl (fun acc c => acc * 10 + (c.toNat - 48)) 0
    some (if signed.1 then -(n : Int) else (n : Int), rest)

/-- A JSON value of the shapes index records use: string or integer. -/
def jsonVal (l : List Char) : Option (PyVal × List Char) :=
  match jsonStr l with
  | some p => some (.vstr p.1, p.2)
  | none =>
    match jsonNum l with
    | some p => some (.vint p.1, p.2)
    | none => none

/-- The members of a JSON object, positioned after `\x7b` or a comma; fuel
bounds the recursion by the input length. -/
def jsonPairs : Nat → List Char → Option (Dict × List Char)
  | 0, _ => none
  | fuel + 1, l =>
    match jsonStr (skipWs l) with
    | none => none
    | some (k, rest) =>
      match skipWs rest with
      | ':' :: rest2 =>
        match jsonVal (skipWs rest2) with
        | none => none
        | some (v, rest3) =>
          match skipWs rest3 with
          | ',' :: rest4 =>
            match jsonPairs fuel rest4 with
            | some (d, rest5) => some ((k, v) :: d, rest5)
            | none => none
          | c :: rest4 =>
            if c == Char.ofNat 125 then some ([(k, v)], rest4) else none
          | [] => none
      | _ => none

/-- Executable model of `json.loads` on the documents the index service
returns: one flat object with escape-free string or integer values.
Anything else — in particular the empty string and blank lines —
raises `ValueError` (`json.JSONDecodeError`). -/
def json_loads (s : String) : Except PyExc Dict :=
  let l := skipWs s.data
  match l with
  | c :: rest =>
    if c == Char.ofNat 123 then
      match skipWs rest with
      | c2 :: rest2 =>
        let parsed : Option (Dict × List Char) :=
          if c2 == Char.ofNat 125 then some ([], rest2)
          else jsonPairs (s.data.length + 1) rest
        match parsed with
        | some (d, rest3) =>
          if (skipWs rest3).isEmpty then .ok d
          else .error (.valueError "Extra data")
        | none => .error (.valueError "Expecting value")
      | [] => .error (.valueError "Expecting value")
    else .error (.valueError "Expecting value")
  | [] => .error (.valueError "Expecting value")

/-- Modelled from the spec claim C6: split the body by newline and parse
each NON-EMPTY line as one JSON object (empty lines are not parsed),
returning the parsed objects in order. -/
def search_cc_index_claimed {J : Type} (jsonLoads : String → Except PyExc J)
    (body : String) : Except PyExc (List J) :=
  ((pySplitNewline body).filter (fun l => !(l == ""))).mapM jsonLoads

/-! Helper lemmas shared by the claim theorems. -/

/-- If any element of a list fails under `f`, then `mapM f` fails. -/
theorem mapM_mem_error {α β : Type} (f : α → Except PyExc β) (l : List α)
    (x : α) (e : PyExc) (hx : x ∈ l) (hf : f x = .error e) :
    ∃ e2, l.mapM f = .error e2 := by
  induction l with
  | nil => cases hx
  | cons a t ih =>
    rw [List.mapM_cons]
    cases hx with
    | head => exact ⟨e, by rw [hf]; rfl⟩
    | tail _ hmem =>
      cases ha : f a with
      | error e2 => exact ⟨e2, rfl⟩
      | ok v =>
        obtain ⟨e2, ht⟩ := ih hmem
        exact ⟨e2, by rw [ht]; rfl⟩

/-- The exception escaping `process_content` can only be the `KeyError`
from subscripting the og:url meta tag with `content`. -/
theorem process_content_exc (parse : String → Soup) (content query : String)
    (e : PyExc) (h : (process_content parse content query).2 = some e) :
    e = .keyError "content" := by
  simp only [process_content] at h
  rcases hm : (parse content).metaOgUrl with _ | m
  · rw [hm] at h; simp at h
  · rw [hm] at h
    simp only [tagGetItem] at h
    rcases hl : m.attrs.lookup "content" with _ | v
    · rw [hl] at h
      simp at h
      exact h.symm
    · rw [hl] at h; simp at h

/-- A truthy record value on which `int` fails raises a `ValueError`. -/
theorem pyInt_error_valueError (v : PyVal) (e : PyExc)
    (ht : pyTruthy v = true) (h : pyInt v = .error e) :
    ∃ s, e = PyExc.valueError s := by
  cases v with
  | vnone => simp [pyTruthy] at ht
  | vint n => simp [pyInt] at h
  | vstr s =>
    simp only [pyInt] at h
    rcases hp : parsePyIntString s with _ | n
    · rw [hp] at h
      simp at h
      exact ⟨_, h.symm⟩
    · rw [hp] at h; simp at h

/-- The exception escaping the driver's per-record body is a `ValueError`
(from `int`) or a `KeyError` (from `process_content`). -/
theorem handle_record_exc (env : Env) (query : String) (record : Dict)
    (e : PyExc) (h : (handle_record env query record).2 = some e) :
    (∃ s, e = PyExc.valueError s) ∨ (∃ s, e = PyExc.keyError s) := by
  simp only [handle_record] at h
  split at h
  case isTrue hc =>
    rw [Bool.and_eq_true, Bool.and_eq_true] at hc
    obtain ⟨⟨_, hoff⟩, hlen⟩ := hc
    split at h
    case h_1 e1 he1 =>
      simp at h
      exact .inl (h ▸ pyInt_error_valueError _ _ hoff he1)
    case h_2 oi hoi =>
      split at h
      case h_1 e1 he1 =>
        simp at h
        exact .inl (h ▸ pyInt_error_valueError _ _ hlen he1)
      case h_2 li hli =>
        split at h
        case h_1 content hcontent =>
          split at h
          · simp at h
          · simp at h
            have := process_content_exc env.parse content query e h
            exact .inr ⟨_, this⟩
        case h_2 => simp at h
  case isFalse => simp at h

/-- The exception escaping the driver's record loop has the same shape. -/
theorem run_records_exc (env : Env) (query : String) (l : List Dict)
    (e : PyExc) (h : (run_records env query l).2 = some e) :
    (∃ s, e = PyExc.valueError s) ∨ (∃ s, e = PyExc.keyError s) := by
  induction l with
  | nil => simp [run_records] at h
  | cons r t ih =>
    simp only [run_records] at h
    split at h
    case h_1 out e1 heq =>
      simp at h
      exact handle_record_exc env query r e (by rw [heq, h])
    case h_2 out heq =>
      simp at h
      exact ih h

/-- The exception escaping the driver's per-query body has the same shape. -/
theorem handle_query_exc (env : Env) (index_name query : String)
    (e : PyExc) (h : (handle_query env index_name query).2 = some e) :
    (∃ s, e = PyExc.valueError s) ∨ (∃ s, e = PyExc.keyError s) := by
  simp only [handle_query] at h
  split at h
  · simp at h
  · simp at h
    exact run_records_exc env query _ e h

/-- The exception escaping the driver's query loop has the same shape. -/
theorem run_queries_exc (env : Env) (index_name : String) (l : List String)
    (e : PyExc) (h : (run_queries env index_name l).2 = some e) :
    (∃ s, e = PyExc.valueError s) ∨ (∃ s, e = PyExc.keyError s) := by
  induction l with
  | nil => simp [run_queries] at h
  | cons q t ih =>
    simp only [run_queries] at h
    split at h
    case h_1 out e1 heq =>
      simp at h
      exact handle_query_exc env index_name q e (by rw [heq, h])
    case h_2 out heq =>
      simp at h
      exact ih h

/-- The exception escaping the driver's group loop has the same shape. -/
theorem run_groups_exc (env : Env) (index_name : String)
    (l : List (String × List String)) (e : PyExc)
    (h : (run_groups env index_name l).2 = some e) :
    (∃ s, e = PyExc.valueError s) ∨ (∃ s, e = PyExc.keyError s) := by
  induction l with
  | nil => simp [run_groups] at h
  | cons g t ih =>
    obtain ⟨group_name, query_list⟩ := g
    simp only [run_groups] at h
    split at h
    case h_1 out e1 heq =>
      simp at h
      exact run_queries_exc env index_name query_list e (by rw [heq, h])
    case h_2 out heq =>
      simp at h
      exact ih h

/-- `(String.mk l).length = l.length`, so a `takeChars` excerpt is bounded. -/
theorem takeChars_length_le (n : Nat) (s : String) : (takeChars n s).length ≤ n := by
  show (s.data.take n).length ≤ n
  rw [List.length_take]
  exact min_le_left n s.data.length

/-! The claim theorems. -/

/-- Claim C7 (confirmed): for every filename, integer offset ≥ 0 and
integer length > 0, `fetch_single_record` requests
`https://data.commoncrawl.org/{filename}` with a `Range` header equal to
`bytes=offset-(offset+length-1)` — the inclusive byte range
`[offset, offset+length-1]`, which holds exactly `length` bytes — and its
result is determined by the response to exactly that request. -/
theorem fetch_request_inclusive_range (f : String) (offset length : Int)
    (h0 : 0 ≤ offset) (h1 : 0 < length) :
    (fetch_request f offset length).url = "https://data.commoncrawl.org/" ++ f ∧
    (fetch_request f offset length).range =
      "bytes=" ++ toString offset ++ "-" ++ toString (offset + length - 1) ∧
    (offset + length - 1) - offset + 1 = length ∧
    ∀ net, fetch_single_record net f offset length =
      fetch_single_record_resp f (net (fetch_request f offset length)) :=
  ⟨rfl, rfl, by ring, fun _ => rfl⟩

/-- Witness for C7 at filename "f.warc.gz", offset 10, length 5:
the URL and the inclusive Range header `bytes=10-14`. -/
theorem fetch_request_inclusive_range_witness :
    (fetch_request "f.warc.gz" 10 5).url = "https://data.commoncrawl.org/" ++ "f.warc.gz" ∧
    (fetch_request "f.warc.gz" 10 5).range =
      "bytes=" ++ toString (10 : Int) ++ "-" ++ toString ((10 : Int) + 5 - 1) ∧
    ((10 : Int) + 5 - 1) - 10 + 1 = 5 :=
  have h := fetch_request_inclusive_range "f.warc.gz" 10 5 (by decide) (by decide)
  ⟨h.1, h.2.1, h.2.2.1⟩

/-- Claim C5 (confirmed): for every filename, offset and length,
`fetch_single_record` returns `None` — and, being a total function of the
request's outcome, never raises — whenever the request raises, or the
archive response status is not 206 (whether or not `raise_for_status`
turns it into an `HTTPError`), or the returned container holds no record
tagged "response". -/
theorem fetch_single_record_absent_on_failure
    (net : HttpRequest → Except PyExc ArchiveResponse)
    (f : String) (offset length : Int)
    (h : (∃ e, net (fetch_request f offset length) = .error e) ∨
         (∃ r, net (fetch_request f offset length) = .ok r ∧
           (r.status ≠ 206 ∨
            r.records.find? (fun rec => rec.rec_type == "response") = none))) :
    (fetch_single_record net f offset length).2 = none := by
  unfold fetch_single_record
  rcases h with ⟨e, he⟩ | ⟨r, hr, hcase⟩
  · rw [he]
    cases e <;> rfl
  · rw [hr]
    unfold fetch_single_record_resp
    by_cases hs : isHttpErrorStatus r.status
    · simp [hs]
    · rcases hcase with h206 | hfind
      · have : (r.status == 206) = false := by simp [h206]
        simp [hs, this]
      · by_cases h6 : r.status = 206
        · have h6b : (r.status == 206) = true := by simp [h6]
          simp [hs, h6b, hfind]
        · have h6b : (r.status == 206) = false := by simp [h6]
          simp [hs, h6b]

/-- Witness for C5: a 206 archive response whose only record is tagged
"request" (no "response" record) yields `None`. -/
theorem fetch_single_record_absent_on_failure_witness :
    (fetch_single_record
      (fun _ => .ok { status := 206, records := [{ rec_type := "request", body := [65] }] })
      "f.warc.gz" 0 2).2 = none :=
  fetch_single_record_absent_on_failure _ "f.warc.gz" 0 2
    (.inr ⟨_, rfl, .inr rfl⟩)

/-- Claim C4 (confirmed): for every query and index name, if the index
request times out, raises an HTTP error (4xx/5xx status), or any other
exception occurs — including a `json.loads` failure while parsing the
body — `search_cc_index` prints a descriptive message and returns the
empty list; being a total function of the request's outcome, it never
raises to its caller. -/
theorem search_cc_index_fails_open {J : Type}
    (jsonLoads : String → Except PyExc J) (query : String)
    (net : Except PyExc HttpResponse)
    (h : (∃ e, net = .error e) ∨
         (∃ r, net = .ok r ∧ isHttpErrorStatus r.status) ∨
         (∃ r e, net = .ok r ∧ ¬ isHttpErrorStatus r.status ∧
           (indexLines r.body).mapM jsonLoads = .error e)) :
    (search_cc_index jsonLoads query net).2 = [] ∧
    (search_cc_index jsonLoads query net).1 ≠ [] := by
  have hres : ∃ e2, search_cc_index_result jsonLoads net = .error e2 := by
    rcases h with ⟨e, he⟩ | ⟨r, hr, hs⟩ | ⟨r, e, hr, hs, hp⟩
    · exact ⟨e, by rw [he]; rfl⟩
    · refine ⟨PyExc.httpError (statusMsg r.status), ?_⟩
      rw [hr]
      simp [search_cc_index_result, hs]
    · refine ⟨e, ?_⟩
      rw [hr]
      simp only [search_cc_index_result]
      rw [if_neg hs, hp]
  obtain ⟨e2, h2⟩ := hres
  unfold search_cc_index
  rw [h2]
  cases e2 <;> simp

/-- Witness for C4: a timed-out index request yields the timeout message
and the empty list. -/
theorem search_cc_index_fails_open_witness :
    (search_cc_index json_loads "pstu.ru" (.error .timeout)).2 = [] ∧
    (search_cc_index json_loads "pstu.ru" (.error .timeout)).1 ≠ [] :=
  search_cc_index_fails_open json_loads "pstu.ru" (.error .timeout)
    (.inl ⟨.timeout, rfl⟩)

/-- A 206 archive response whose "response" record's body is the bytes
`A 0xFF`: `0xFF` is undecodable as UTF-8. -/
def respInvalidByte : ArchiveResponse :=
  { status := 206, records := [{ rec_type := "response", body := [65, 255] }] }

/-- Claim C2 counterexample: on the 206 response `respInvalidByte` the code
returns "A" — the undecodable byte `0xFF` is DROPPED (`errors=ignore`),
not replaced: the claimed result, a decode that substitutes U+FFFD for
invalid bytes, would be "A�", which differs. -/
theorem fetch_decode_drops_undecodable_bytes :
    (fetch_single_record (fun _ => .ok respInvalidByte) "f.warc.gz" 0 2).2 = some "A" ∧
    String.mk (utf8DecodeReplace [65, 255]) = String.mk [Char.ofNat 65, Char.ofNat 0xFFFD] ∧
    (fetch_single_record (fun _ => .ok respInvalidByte) "f.warc.gz" 0 2).2 ≠
      some (String.mk (utf8DecodeReplace [65, 255])) :=
  ⟨rfl, rfl, by decide⟩

/-- Claim C2 (amended): for every 206 archive response containing a record
tagged "response", `fetch_single_record` returns that record's body decoded
as UTF-8 with undecodable bytes DROPPED (`errors=ignore`), a decode that is
total — it never fails for any byte sequence. -/
theorem fetch_decodes_utf8_ignoring_errors
    (net : HttpRequest → Except PyExc ArchiveResponse)
    (f : String) (offset length : Int) (r : ArchiveResponse) (rec : WarcRecord)
    (hnet : net (fetch_request f offset length) = .ok r)
    (h206 : r.status = 206)
    (hfind : r.records.find? (fun w => w.rec_type == "response") = some rec) :
    (fetch_single_record net f offset length).2 =
      some (String.mk (utf8DecodeIgnore rec.body)) := by
  unfold fetch_single_record fetch_single_record_resp
  rw [hnet]
  have hs : ¬ isHttpErrorStatus r.status := by
    rw [h206]; decide
  have h6b : (r.status == 206) = true := by simp [h206]
  simp [hs, h6b, hfind]

/-- Witness for the amended C2: on `respInvalidByte` the result is the
`errors=ignore` decode of the body `A 0xFF`, namely "A". -/
theorem fetch_decodes_utf8_ignoring_errors_witness :
    (fetch_single_record (fun _ => .ok respInvalidByte) "f.warc.gz" 0 2).2 =
      some (String.mk (utf8DecodeIgnore [65, 255])) :=
  fetch_decodes_utf8_ignoring_errors _ "f.warc.gz" 0 2 respInvalidByte
    { rec_type := "response", body := [65, 255] } rfl rfl rfl

/-- An index body whose two non-empty lines are valid JSON objects with a
blank line between them. -/
def bodyBlankLine : String := "\x7b\"a\": 1\x7d\n\n\x7b\"b\": 2\x7d"

/-- Claim C6 counterexample: on a successful response whose body is
`bodyBlankLine`, the claimed behaviour ("parse each non-empty line, return
the parsed objects in order") yields the two objects, but the code parses
EVERY line of the stripped body — `json.loads` of the blank line raises,
the exception is caught, and the whole result is the empty list. -/
theorem index_parsing_not_per_nonempty_line :
    search_cc_index_claimed json_loads bodyBlankLine =
      .ok [[("a", PyVal.vint 1)], [("b", PyVal.vint 2)]] ∧
    (search_cc_index json_loads "q" (.ok { status := 200, body := bodyBlankLine })).2 = [] ∧
    (search_cc_index json_loads "q" (.ok { status := 200, body := bodyBlankLine })).2 ≠
      [[("a", PyVal.vint 1)], [("b", PyVal.vint 2)]] :=
  ⟨rfl, rfl, by decide⟩

/-- Claim C6 (amended): `search_cc_index` splits the STRIPPED body by
newline and parses EVERY resulting line (empty lines included, and their
parse fails); when every line parses, it returns the parsed objects as a
list in response order. -/
theorem search_cc_index_parses_every_line {J : Type}
    (jsonLoads : String → Except PyExc J) (query : String)
    (r : HttpResponse) (objs : List J)
    (hs : ¬ isHttpErrorStatus r.status)
    (hp : (indexLines r.body).mapM jsonLoads = .ok objs) :
    (search_cc_index jsonLoads query (.ok r)).2 = objs := by
  have hres : search_cc_index_result jsonLoads (.ok r) = .ok objs := by
    simp only [search_cc_index_result]
    rw [if_neg hs, hp]
  unfold search_cc_index
  rw [hres]

/-- Witness for the amended C6: a two-line body with no blank lines parses
to its two objects in order. -/
theorem search_cc_index_parses_every_line_witness :
    (search_cc_index json_loads "q"
      (.ok { status := 200, body := "\x7b\"a\": 1\x7d\n\x7b\"b\": 2\x7d" })).2 =
      [[("a", PyVal.vint 1)], [("b", PyVal.vint 2)]] :=
  search_cc_index_parses_every_line json_loads "q"
    { status := 200, body := "\x7b\"a\": 1\x7d\n\x7b\"b\": 2\x7d" }
    [[("a", PyVal.vint 1)], [("b", PyVal.vint 2)]] (by decide) rfl

/-- Claim C10 (confirmed): index parsing is all-or-nothing — on a
successful index response one of whose (stripped-body) lines fails to
parse as JSON (for example a blank line between records, or the single
empty line an entirely empty body strips and splits to), `search_cc_index`
returns the empty list, discarding the records parsed from valid lines. -/
theorem index_parsing_all_or_nothing {J : Type}
    (jsonLoads : String → Except PyExc J) (query : String)
    (r : HttpResponse) (line : String) (e : PyExc)
    (hs : ¬ isHttpErrorStatus r.status)
    (hline : line ∈ indexLines r.body)
    (herr : jsonLoads line = .error e) :
    (search_cc_index jsonLoads query (.ok r)).2 = [] := by
  obtain ⟨e2, h2⟩ := mapM_mem_error jsonLoads _ line e hline herr
  have hres : search_cc_index_result jsonLoads (.ok r) = .error e2 := by
    simp only [search_cc_index_result]
    rw [if_neg hs, h2]
  unfold search_cc_index
  rw [hres]
  cases e2 <;> simp

/-- Witness for C10: the blank line inside `bodyBlankLine` fails to parse,
so the whole result is the empty list even though the two other lines are
valid records. -/
theorem index_parsing_all_or_nothing_witness :
    (search_cc_index json_loads "q" (.ok { status := 200, body := bodyBlankLine })).2 = [] :=
  index_parsing_all_or_nothing json_loads "q"
    { status := 200, body := bodyBlankLine } "" (.valueError "Expecting value")
    (by decide) (by decide) rfl

/-- The soup bs4 produces for
`<html><head><meta property="og:url"></head></html>`: no title, an og:url
meta tag with no `content` attribute, no text. -/
def soupMetaNoContent : Soup :=
  { titleTag := none
  , metaOgUrl := some { attrs := [("property", "og:url")], text := "" }
  , fullText := "" }

/-- Claim C1 counterexample: on HTML whose og:url meta tag lacks a
`content` attribute, `process_content` does not complete — the subscript
on the meta tag (line 105) raises `KeyError: content`. -/
theorem process_content_keyerror_missing_content_attr :
    (process_content (fun _ => soupMetaNoContent)
      "<html><head><meta property=\"og:url\"></head></html>" "pstu.ru").2 =
      some (PyExc.keyError "content") := rfl

/-- Claim C1 (amended): `process_content` completes without raising — its
only effect being console output — for every HTML input (malformed
included; the parse is total) EXCEPT when the parsed document's og:url
meta tag is present without a `content` attribute, in which case a
`KeyError` escapes: whenever the tag, if present, carries that attribute,
no exception occurs. -/
theorem process_content_never_raises_with_content_attr
    (parse : String → Soup) (content query : String)
    (h : ∀ m, (parse content).metaOgUrl = some m →
      (m.attrs.lookup "content").isSome = true) :
    (process_content parse content query).2 = none := by
  simp only [process_content]
  rcases hm : (parse content).metaOgUrl with _ | m
  · simp
  · have hv := h m hm
    rcases hl : m.attrs.lookup "content" with _ | v
    · rw [hl] at hv
      simp at hv
    · simp [tagGetItem, hl]

/-- Witness for the amended C1: a soup whose og:url meta tag has a
`content` attribute completes without exception. -/
theorem process_content_never_raises_with_content_attr_witness :
    (process_content
      (fun _ => { titleTag := none
                , metaOgUrl := some { attrs := [("property", "og:url"), ("content", "http://x")], text := "" }
                , fullText := "" })
      "<html><head><meta property=\"og:url\" content=\"http://x\"></head></html>"
      "pstu.ru").2 = none :=
  process_content_never_raises_with_content_attr _ _ "pstu.ru"
    (fun m hm => by
      injection hm with h2
      rw [← h2]
      rfl)

/-- Claim C9 (confirmed): for every HTML input, `process_content` prints
the fallback title label ("Без заголовка") when no title element is
present, prints the fallback URL label ("Неизвестно") when no og:url meta
tag is present, and — whenever it completes — prints the excerpt
`soup.get_text ()[:1000]`, whose length never exceeds 1000 characters. -/
theorem process_content_fallbacks_and_excerpt
    (parse : String → Soup) (content query : String) :
    ((parse content).titleTag = none →
      "Заголовок страницы: Без заголовка" ∈ (process_content parse content query).1) ∧
    ((parse content).metaOgUrl = none →
      "URL: Неизвестно" ∈ (process_content parse content query).1) ∧
    ((process_content parse content query).2 = none →
      takeChars 1000 (parse content).fullText ∈ (process_content parse content query).1 ∧
      (takeChars 1000 (parse content).fullText).length ≤ 1000) := by
  refine ⟨fun ht => ?_, fun hm => ?_, fun hok => ?_⟩
  · simp only [process_content, ht]
    rcases hm2 : (parse content).metaOgUrl with _ | m
    · simp
    · cases hv : tagGetItem m "content" with
      | error e => simp [hv]
      | ok v => simp [hv]
  · simp only [process_content, hm]
    simp
  · refine ⟨?_, takeChars_length_le 1000 _⟩
    simp only [process_content] at hok ⊢
    rcases hm2 : (parse content).metaOgUrl with _ | m
    · simp
    · cases hv : tagGetItem m "content" with
      | error e =>
        rw [hm2] at hok
        simp [hv] at hok
      | ok v => simp [hv]

/-- A soup with neither title nor og:url meta tag and an 1100-character
text, as bs4 would produce for `<p>` content of that size. -/
def soupLongText : Soup :=
  { titleTag := none, metaOgUrl := none, fullText := String.mk (List.replicate 1100 'x') }

/-- Witness for C9 on `soupLongText`: both fallback labels are printed, and
the excerpt of the 1100-char text is printed with length at most 1000. -/
theorem process_content_fallbacks_and_excerpt_witness :
    "Заголовок страницы: Без заголовка" ∈
      (process_content (fun _ => soupLongText) "<p>x</p>" "q").1 ∧
    "URL: Неизвестно" ∈
      (process_content (fun _ => soupLongText) "<p>x</p>" "q").1 ∧
    (takeChars 1000 soupLongText.fullText ∈
      (process_content (fun _ => soupLongText) "<p>x</p>" "q").1 ∧
     (takeChars 1000 soupLongText.fullText).length ≤ 1000) :=
  have h := process_content_fallbacks_and_excerpt (fun _ => soupLongText) "<p>x</p>" "q"
  ⟨h.1 rfl, h.2.1 rfl, h.2.2 rfl⟩

/-- Claim C8 (confirmed): for every index record whose `filename`, `offset`
or `length` field is missing or falsy (numeric zero included), the driver's
per-record body — what `handle_query` applies to the first five records of
a query — prints the message identifying the incomplete record and
completes without exception, with this same result for EVERY environment:
in particular it never touches the archive store, i.e. no fetch happens. -/
theorem driver_skips_incomplete_record (env : Env) (query : String) (record : Dict)
    (h : (pyTruthy (dictGet record "filename") && pyTruthy (dictGet record "offset") &&
          pyTruthy (dictGet record "length")) = false) :
    handle_record env query record = ([noDataMsg record], none) := by
  simp [handle_record, h]

/-- A benign environment whose archive store always fails, used to witness
driver-level theorems. -/
def envNoArchive : Env :=
  { indexNet := fun _ _ => .error .timeout
  , jsonLoads := json_loads
  , archiveNet := fun _ => .error (.other "network unavailable")
  , parse := fun _ => { titleTag := none, metaOgUrl := none, fullText := "" } }

/-- An index record with a legitimate filename and length but numeric zero
offset — falsy, so the driver treats it as incomplete. -/
def recordZeroOffset : Dict :=
  [("filename", .vstr "f.warc.gz"), ("offset", .vint 0), ("length", .vstr "100")]

/-- Witness for C8: the zero-offset record is skipped with the message,
without exception. -/
theorem driver_skips_incomplete_record_witness :
    handle_record envNoArchive "pstu.ru" recordZeroOffset =
      ([noDataMsg recordZeroOffset], none) :=
  driver_skips_incomplete_record envNoArchive "pstu.ru" recordZeroOffset (by decide)

/-- An index response holding one record whose `offset` field is the
non-numeric string "abc". -/
def respNonNumericOffset : HttpResponse :=
  { status := 200
  , body := "\x7b\"filename\": \"f.warc.gz\", \"offset\": \"abc\", \"length\": \"100\"\x7d" }

/-- An environment whose index service returns `respNonNumericOffset`,
whose HTML parse never yields an og:url tag (so `process_content` cannot
raise), and whose archive store fails. -/
def envNonNumericOffset : Env :=
  { indexNet := fun _ _ => .ok respNonNumericOffset
  , jsonLoads := json_loads
  , archiveNet := fun _ => .error (.other "network unavailable")
  , parse := fun _ => { titleTag := none, metaOgUrl := none, fullText := "" } }

/-- Claim C3 counterexample: with an index record whose `offset` is the
non-numeric string "abc", the unguarded `int (offset)` on line 136 raises
`ValueError` out of the driver loop — an exception that does not arise
inside the HTML-extraction step (with this parse `process_content` never
raises, and it is never even reached), contradicting the claim that only
`process_content` exceptions escape. -/
theorem driver_raises_on_nonnumeric_offset :
    (search_and_print_results envNonNumericOffset
      [("г. Пермь, Пермский Политех, кафедра ИТАС", ["pstu.ru"])]
      "CC-MAIN-2024-33").2 =
      some (PyExc.valueError "invalid literal for int() with base 10: \x27abc\x27") := by decide

/-- Claim C3 (amended): for every queries mapping and index-record
contents, the driver continues past all handled failures, and the only
exceptions that escape the driver loop are the `ValueError` from the
`int` conversion of a truthy non-numeric `offset`/`length` (line 136) and
an exception arising inside the HTML-extraction step (`process_content`,
a `KeyError`). -/
theorem driver_exception_kinds (env : Env) (queries : List (String × List String))
    (index_name : String) (e : PyExc)
    (h : (search_and_print_results env queries index_name).2 = some e) :
    (∃ s, e = PyExc.valueError s) ∨ (∃ s, e = PyExc.keyError s) :=
  run_groups_exc env index_name queries e h

/-- Witness for the amended C3: the escaped exception of the
`envNonNumericOffset` run is of the `ValueError` kind. -/
theorem driver_exception_kinds_witness :
    (search_and_print_results envNonNumericOffset [("g", ["pstu.ru"])]
      "CC-MAIN-2024-33").2 =
      some (PyExc.valueError "invalid literal for int() with base 10: \x27abc\x27") ∧
    ((∃ s, PyExc.valueError "invalid literal for int() with base 10: \x27abc\x27" =
        PyExc.valueError s) ∨
     (∃ s, PyExc.valueError "invalid literal for int() with base 10: \x27abc\x27" =
        PyExc.keyError s)) :=
  ⟨by decide, driver_exception_kinds envNonNumericOffset [("g", ["pstu.ru"])]
    "CC-MAIN-2024-33" _ (by decide)⟩

end CCSearch
